import Mathlib

/-!
# Verification of the static-data access layer (`src/lib/staticData.ts`)

Shallow embedding of the TypeScript module `src/lib/staticData.ts`:

* JavaScript `Map` objects are modelled as association lists in insertion
  order (`mapSet` updates in place or appends, `mapDelete` removes the
  entry with the given key), which is exactly the iteration/insertion
  semantics of `Map`.
* The environment (file system on the server, network on the client) is a
  `World`: a function from resource paths to `Option Json`; `none` models
  a failed fetch (non-OK status / read error).  The server/client branches
  of `fetchJson` perform the same check-parse-cache sequence, so both
  transports collapse onto `World.get`.
* Module-level mutable state (`cache`, `searchCache`, `indexCache`) is an
  explicit record `St` threaded through every operation.
* Every operation additionally returns the list of paths for which an
  underlying fetch was attempted (cache hits attempt none), so that
  "performs no fetch" properties are statable.
* A thrown exception is modelled as `none` in the first (result) component
  for the operations that can propagate errors (`fetchJson`, `getIndex`,
  `getSearchEntries` in the global scope, `search`); `getVideo` returns
  `none` for its caught-and-nulled failures, and `getVideos` always
  returns a `VideoPage` because it catches every error.
* The TypeScript `as T` cast is unchecked; the embedding gives each JSON
  payload a variant tag and treats an ill-typed payload at a use site as
  a failure.  All theorems below only concern worlds that are well-typed
  at the paths they touch, so this branch is never exercised.
* JavaScript truthiness on optional strings (`if (playlistId)`,
  `category && ...`, `m.vc || "0"`) is modelled by `truthyStr` / `jsOr`:
  both `undefined` and `""` are falsy.
-/

namespace StaticData

/-- `Video` (summary) record from `staticData.ts`. -/
structure Video where
  id : String
  title : String
  publishedAt : String
  duration : String
  thumbnail : String
  viewCount : String
  playlistId : Option String
  playlistName : Option String
  category : Option String
  deriving Repr, DecidableEq

/-- The `nav` block of `VideoDetails`. -/
structure VideoNav where
  prev : Option String
  next : Option String
  index : Int
  total : Int
  deriving Repr, DecidableEq

/-- `VideoDetails extends Video` — flattened. -/
structure VideoDetails where
  id : String
  title : String
  publishedAt : String
  duration : String
  thumbnail : String
  viewCount : String
  playlistId : Option String
  playlistName : Option String
  category : Option String
  description : String
  likeCount : Option String
  commentCount : Option String
  tags : Option (List String)
  nav : VideoNav
  deriving Repr, DecidableEq

/-- `Playlist` record. -/
structure Playlist where
  id : String
  name : String
  category : String
  videoCount : Int
  deriving Repr, DecidableEq

/-- `SiteIndex.stats`. -/
structure SiteStats where
  totalVideos : Int
  totalPlaylists : Int
  categoriesCount : Int
  lastUpdated : String
  deriving Repr, DecidableEq

/-- `SiteIndex` record (the `Record<string, number>` maps become
association lists). -/
structure SiteIndex where
  stats : SiteStats
  categories : List String
  playlists : List Playlist
  paginationAll : Int
  paginationByCategory : List (String × Int)
  paginationByPlaylist : List (String × Int)
  deriving Repr, DecidableEq

/-- `VideoPage`: the uniform result shape of listing and search. -/
structure VideoPage where
  items : List Video
  total : Int
  page : Int
  pageSize : Int
  totalPages : Int
  deriving Repr, DecidableEq

/-- Compact `SearchEntry` record (abbreviated field names as in the
source). -/
structure SearchEntry where
  id : String
  t : String
  c : Option String
  p : Option String
  d : Option String
  th : Option String
  vc : Option String
  pa : Option String
  pn : Option String
  deriving Repr, DecidableEq

/-- A parsed JSON payload, tagged with the shape the program expects at
the various resource paths. -/
inductive Json where
  | page (p : VideoPage)
  | index (i : SiteIndex)
  | detail (d : VideoDetails)
  | manifest (totalChunks : Nat)
  | chunk (entries : List SearchEntry)
  | entryList (entries : List SearchEntry)
  deriving Repr, DecidableEq

/-- The environment: what each resource path resolves to; `none` is a
failed fetch. -/
structure World where
  get : String → Option Json

-- ===========================================================================
-- JS `Map` model: association lists in insertion order
-- ===========================================================================

/-- `Map.get` / `Map.has`: first (and, for a real `Map`, only) binding of
the key. -/
def mlookup : List (String × α) → String → Option α
  | [], _ => none
  | kv :: t, k => if kv.1 = k then some kv.2 else mlookup t k

/-- `Map.set`: update in place if the key exists, else append (insertion
order is preserved for existing keys, as for JS `Map`). -/
def mapSet : List (String × α) → String → α → List (String × α)
  | [], k, v => [(k, v)]
  | kv :: t, k, v =>
      if kv.1 = k then (k, v) :: t else kv :: mapSet t k v

/-- `Map.delete`: remove the binding of the key. -/
def mapDelete : List (String × α) → String → List (String × α)
  | [], _ => []
  | kv :: t, k => if kv.1 = k then t else kv :: mapDelete t k

/-- The keys of a map, in insertion order. -/
def keys (m : List (String × α)) : List String := m.map Prod.fst

-- ===========================================================================
-- Mutable module state
-- ===========================================================================

/-- The module-level mutable state of `staticData.ts`: the bounded fetch
cache, the search-scope cache and the single-slot index memo. -/
structure St where
  cache : List (String × Json)
  searchCache : List (String × List SearchEntry)
  indexCache : Option SiteIndex
  deriving Repr, DecidableEq

/-- The state at process start: all caches empty. -/
def St.empty : St := ⟨[], [], none⟩

-- ===========================================================================
-- Fetch helpers
-- ===========================================================================

/-- `MAX_CACHE_SIZE` from the source. -/
def MAX_CACHE_SIZE : Nat := 100

/-- `cacheSet`: if the cache is full, delete the first (oldest-inserted)
key — guarded by JS truthiness, so an empty-string first key is not
deleted — then `Map.set` the new binding. -/
def cacheSet (c : List (String × Json)) (key : String) (v : Json) :
    List (String × Json) :=
  let c' :=
    if MAX_CACHE_SIZE ≤ c.length then
      match c.head? with
      | some kv => if kv.1 = "" then c else mapDelete c kv.1
      | none => c
    else c
  mapSet c' key v

/-- `fetchJson`: return the cached value on a hit; otherwise attempt the
underlying fetch (logged), cache the parsed payload on success, and
propagate the error (`none`) on failure.  The server and client branches
of the source both follow this sequence. -/
def fetchJson (w : World) (s : St) (path : String) :
    Option Json × St × List String :=
  match mlookup s.cache path with
  | some v => (some v, s, [])
  | none =>
      match w.get path with
      | some data => (some data, { s with cache := cacheSet s.cache path data }, [path])
      | none => (none, s, [path])

-- ===========================================================================
-- JS helpers used by the public API
-- ===========================================================================

/-- JS truthiness of an optional string: `undefined` and `""` are falsy. -/
def truthyStr : Option String → Bool
  | none => false
  | some s => !s.data.isEmpty

/-- JS `x || dflt` on an optional string. -/
def jsOr (x : Option String) (dflt : String) : String :=
  match x with
  | some v => if v.data.isEmpty then dflt else v
  | none => dflt

/-- The ASCII part of the whitespace set JS `trim` removes. -/
def jsIsWhitespace (ch : Char) : Bool :=
  ch = ' ' || ch = '\t' || ch = '\n' || ch = '\r' ||
    ch = Char.ofNat 11 || ch = Char.ofNat 12

/-- JS `String.prototype.trim` on the character list. -/
def trimChars (l : List Char) : List Char :=
  ((l.dropWhile jsIsWhitespace).reverse.dropWhile jsIsWhitespace).reverse

/-- The `!query.trim()` test: is the string empty after trimming? -/
def jsTrimmedEmpty (s : String) : Bool := (trimChars s.data).isEmpty

/-- JS `String.prototype.toLowerCase` (exact on ASCII, the alphabet the
title matching below is specified over). -/
def toLowerStr (s : String) : String := String.mk (s.data.map Char.toLower)

/-- UTF-8 bytes of a scalar value (used by `encodeURIComponent`). -/
def utf8Bytes (ch : Char) : List Nat :=
  let n := ch.toNat
  if n < 0x80 then [n]
  else if n < 0x800 then [0xC0 + n / 64, 0x80 + n % 64]
  else if n < 0x10000 then
    [0xE0 + n / 4096, 0x80 + n / 64 % 64, 0x80 + n % 64]
  else
    [0xF0 + n / 262144, 0x80 + n / 4096 % 64, 0x80 + n / 64 % 64, 0x80 + n % 64]

/-- Upper-case hexadecimal digit. -/
def hexDigitChar (n : Nat) : Char :=
  if n < 10 then Char.ofNat (48 + n) else Char.ofNat (55 + n)

/-- The characters `encodeURIComponent` leaves unescaped:
`A–Z a–z 0–9 - _ . ! ~ * ' ( )`. -/
def isUriUnreserved (ch : Char) : Bool :=
  ch.isAlphanum || ch = '-' || ch = '_' || ch = '.' || ch = '!' ||
    ch = '~' || ch = '*' || ch = Char.ofNat 39 || ch = '(' || ch = ')'

/-- `encodeURIComponent`: unreserved characters pass through, every other
character is percent-encoded per UTF-8 byte with upper-case hex. -/
def encodeURIComponent (s : String) : String :=
  String.join (s.data.map fun ch =>
    if isUriUnreserved ch then String.singleton ch
    else String.mk ((utf8Bytes ch).flatMap fun b =>
      ['%', hexDigitChar (b / 16), hexDigitChar (b % 16)]))

-- ===========================================================================
-- Public API
-- ===========================================================================

/-- `getIndex`: single-slot memo; on a miss, fetch `/index.json`,
remember it, and propagate a fetch failure (`none` = thrown). -/
def getIndex (w : World) (s : St) : Option SiteIndex × St × List String :=
  match s.indexCache with
  | some i => (some i, s, [])
  | none =>
      match fetchJson w s "/index.json" with
      | (some (Json.index i), s', log) =>
          (some i, { s' with indexCache := some i }, log)
      | (some _, s', log) => (none, s', log)
      | (none, s', log) => (none, s', log)

/-- The sort modes accepted by `getVideos`. -/
inductive SortMode where
  | date
  | oldest
  | views
  deriving Repr, DecidableEq

/-- The string each sort mode interpolates into the path. -/
def sortStr : SortMode → String
  | SortMode.date => "date"
  | SortMode.oldest => "oldest"
  | SortMode.views => "views"

/-- The options record of `getVideos` (all fields optional). -/
structure GetVideosOptions where
  page : Option Int := none
  sort : Option SortMode := none
  category : Option String := none
  playlistId : Option String := none
  deriving Repr, DecidableEq

/-- The resource path `getVideos` builds from its inputs: playlist wins
over category wins over the unfiltered scope; `"all"` and `"channel"`
(and falsy values) leave the category branch. -/
def getVideosPath (page : Int) (sort : SortMode)
    (category playlistId : Option String) : String :=
  if truthyStr playlistId then
    "/playlists/" ++ playlistId.getD "" ++ "/" ++ sortStr sort ++
      "/page-" ++ toString page ++ ".json"
  else if truthyStr category && !(category.getD "" == "all") &&
      !(category.getD "" == "channel") then
    "/categories/" ++ encodeURIComponent (category.getD "") ++ "/" ++
      sortStr sort ++ "/page-" ++ toString page ++ ".json"
  else
    "/videos/" ++ sortStr sort ++ "/page-" ++ toString page ++ ".json"

/-- `getVideos`: fetch the page fragment for the constructed path;
any failure degrades to an empty `VideoPage` echoing the requested page
with the fixed page size 24. -/
def getVideos (w : World) (s : St) (o : GetVideosOptions) :
    VideoPage × St × List String :=
  let page := o.page.getD 1
  let sort := o.sort.getD SortMode.date
  let path := getVideosPath page sort o.category o.playlistId
  match fetchJson w s path with
  | (some (Json.page p), s', log) => (p, s', log)
  | (some _, s', log) =>
      (⟨[], 0, page, 24, 0⟩, s', log)
  | (none, s', log) =>
      (⟨[], 0, page, 24, 0⟩, s', log)

/-- `getVideo`: fetch `/video/{id}.json`; `none` models the caught
failure (and an ill-typed payload). -/
def getVideo (w : World) (s : St) (id : String) :
    Option VideoDetails × St × List String :=
  match fetchJson w s ("/video/" ++ id ++ ".json") with
  | (some (Json.detail d), s', log) => (some d, s', log)
  | (some _, s', log) => (none, s', log)
  | (none, s', log) => (none, s', log)

-- ===========================================================================
-- Search
-- ===========================================================================

/-- Path of the `i`-th global search chunk. -/
def chunkPath (i : Nat) : String := "/search/chunk-" ++ toString i ++ ".json"

/-- Path of a playlist search scope. -/
def searchPlaylistPath (pid : String) : String :=
  "/search/playlist/" ++ pid ++ ".json"

/-- Path of a category search scope. -/
def searchCategoryPath (cat : String) : String :=
  "/search/category/" ++ encodeURIComponent cat ++ ".json"

/-- The `for (let i = 1; i <= manifest.totalChunks; i++)` loop of
`getSearchEntries`, over the list of remaining chunk indices: fetch
each chunk in ascending order, concatenating entries; a failed (or
ill-typed) chunk fetch propagates. -/
def loadChunks (w : World) :
    List Nat → List SearchEntry → St → List String →
    Option (List SearchEntry) × St × List String
  | [], acc, s, log => (some acc, s, log)
  | i :: rest, acc, s, log =>
      match fetchJson w s (chunkPath i) with
      | (some (Json.chunk es), s', l) =>
          loadChunks w rest (acc ++ es) s' (log ++ l)
      | (some _, s', l) => (none, s', log ++ l)
      | (none, s', l) => (none, s', log ++ l)

/-- The non-global branch of `getSearchEntries`: a cached scope is
returned as is; otherwise the single scope file is fetched and cached,
and a failure degrades to `[]` without caching anything. -/
def getSearchEntriesScoped (w : World) (s : St) (path : String) :
    Option (List SearchEntry) × St × List String :=
  match mlookup s.searchCache path with
  | some es => (some es, s, [])
  | none =>
      match fetchJson w s path with
      | (some (Json.entryList es), s', l) =>
          (some es, { s' with searchCache := mapSet s'.searchCache path es }, l)
      | (some _, s', l) => (some [], s', l)
      | (none, s', l) => (some [], s', l)

/-- `getSearchEntries`: playlist scope, then category scope (with the
`"all"`/`"channel"` exclusions), else the global scope, which always
fetches the manifest first and only then consults the `"__all__"` slot
of the search cache, loading all chunks on a miss.  Global-scope
failures propagate (`none`). -/
def getSearchEntries (w : World) (s : St)
    (category playlistId : Option String) :
    Option (List SearchEntry) × St × List String :=
  if truthyStr playlistId then
    getSearchEntriesScoped w s (searchPlaylistPath (playlistId.getD ""))
  else if truthyStr category && !(category.getD "" == "all") &&
      !(category.getD "" == "channel") then
    getSearchEntriesScoped w s (searchCategoryPath (category.getD ""))
  else
    match fetchJson w s "/search/manifest.json" with
    | (some (Json.manifest n), s', l) =>
        (match mlookup s'.searchCache "__all__" with
         | some es => (some es, s', l)
         | none =>
             match loadChunks w (List.range' 1 n) [] s' l with
             | (some es, s'', log) =>
                 (some es,
                  { s'' with searchCache := mapSet s''.searchCache "__all__" es },
                  log)
             | (none, s'', log) => (none, s'', log))
    | (some _, s', l) => (none, s', l)
    | (none, s', l) => (none, s', l)

/-- Does `pat` occur as a prefix of `l`? -/
def listPrefixOf : List Char → List Char → Bool
  | [], _ => true
  | _ :: _, [] => false
  | a :: as, b :: bs => a == b && listPrefixOf as bs

/-- Does `pat` occur as a contiguous sublist of `l`? -/
def listInfixOf (pat : List Char) : List Char → Bool
  | [] => pat.isEmpty
  | b :: bs => listPrefixOf pat (b :: bs) || listInfixOf pat bs

/-- Substring containment, the embedding of JS `String.includes`. -/
def strContains (s pat : String) : Bool := listInfixOf pat.data s.data

/-- `Array.prototype.slice(start, stop)` on a list, with the ECMAScript
treatment of negative and out-of-range indices. -/
def jsSlice (l : List α) (start stop : Int) : List α :=
  let n : Int := l.length
  let b := if start < 0 then max (n + start) 0 else min start n
  let e := if stop < 0 then max (n + stop) 0 else min stop n
  (l.take e.toNat).drop b.toNat

/-- `Math.ceil(total / pageSize)` for a natural `total` and a positive
`pageSize` (the only case the program reaches with its defaults). -/
def ceilPages (total : Nat) (pageSize : Int) : Int :=
  if pageSize ≤ 0 then 0
  else ((total + pageSize.toNat - 1) / pageSize.toNat : Nat)

/-- The options record of `search`. -/
structure SearchOptions where
  category : Option String := none
  playlistId : Option String := none
  page : Option Int := none
  pageSize : Option Int := none
  deriving Repr, DecidableEq

/-- Conversion of a search entry to a `Video` (the `pageMatches.map` in
`search`, with the `||` defaults of the source). -/
def entryToVideo (m : SearchEntry) : Video :=
  { id := m.id
    title := m.t
    publishedAt := jsOr m.pa ""
    duration := jsOr m.d ""
    thumbnail := jsOr m.th ""
    viewCount := jsOr m.vc "0"
    playlistId := m.p
    playlistName := m.pn
    category := m.c }

/-- `search`: blank queries short-circuit; otherwise the scope's entries
are filtered by case-insensitive title containment, paginated, and
converted to `Video` records. -/
def search (w : World) (s : St) (query : String) (o : SearchOptions) :
    Option VideoPage × St × List String :=
  let page := o.page.getD 1
  let pageSize := o.pageSize.getD 24
  if jsTrimmedEmpty query then
    (some ⟨[], 0, page, pageSize, 0⟩, s, [])
  else
    match getSearchEntries w s o.category o.playlistId with
    | (some entries, s', l) =>
        let q := toLowerStr query
        let hits := entries.filter fun e => strContains (toLowerStr e.t) q
        let total := hits.length
        let totalPages := ceilPages total pageSize
        let start := (page - 1) * pageSize
        let pageMatches := jsSlice hits start (start + pageSize)
        (some ⟨pageMatches.map entryToVideo, total, page, pageSize, totalPages⟩,
         s', l)
    | (none, s', l) => (none, s', l)

-- ===========================================================================
-- Composite loaders
-- ===========================================================================

/-- The view model assembled by `loadVideoPage`. -/
structure VideoPageData where
  video : VideoDetails
  prevVideo : Option Video
  nextVideo : Option Video
  playlistName : String
  playlistVideoCount : Int
  currentIndex : Int
  deriving Repr, DecidableEq

/-- The summary projection `loadVideoPage` applies to a neighbour's
details. -/
def detailToSummary (v : VideoDetails) : Video :=
  { id := v.id
    title := v.title
    publishedAt := v.publishedAt
    duration := v.duration
    thumbnail := v.thumbnail
    viewCount := v.viewCount
    playlistId := v.playlistId
    playlistName := v.playlistName
    category := v.category }

/-- Resolution of one neighbour id: `null` ids resolve to `null` with no
fetch; a loaded neighbour is projected to a summary; a failed load
yields `null`. -/
def loadNeighbor (w : World) (s : St) :
    Option String → Option Video × St × List String
  | some nid =>
      match getVideo w s nid with
      | (some v, s', l) => (some (detailToSummary v), s', l)
      | (none, s', l) => (none, s', l)
  | none => (none, s, [])

/-- `loadVideoPage`: load the detail (`none` = not found aborts), then
resolve both neighbours (the source issues them via `Promise.all`;
single-threaded interleaving with distinct target paths is equivalent to
this sequential order), and assemble the view model with the Arabic
default playlist name. -/
def loadVideoPage (w : World) (s : St) (videoId : String) :
    Option VideoPageData × St × List String :=
  match getVideo w s videoId with
  | (none, s1, l1) => (none, s1, l1)
  | (some video, s1, l1) =>
      let pr := loadNeighbor w s1 video.nav.prev
      let nx := loadNeighbor w pr.2.1 video.nav.next
      (some { video := video
              prevVideo := pr.1
              nextVideo := nx.1
              playlistName := jsOr video.playlistName "دروس متنوعة"
              playlistVideoCount := video.nav.total
              currentIndex := video.nav.index },
       nx.2.1, l1 ++ pr.2.2 ++ nx.2.2)

-- ===========================================================================
-- Verification-specific definitions
-- ===========================================================================

/-- The reachable-state invariant of the bounded fetch cache: never more
than `MAX_CACHE_SIZE` entries, and no empty-string key (every path the
program fetches starts with `/`). -/
def CacheOK (c : List (String × Json)) : Prop :=
  c.length ≤ MAX_CACHE_SIZE ∧ ∀ k ∈ keys c, k ≠ ""

/-- Replay a sequence of `fetchJson` load operations. -/
def runFetches (w : World) (s : St) : List String → St
  | [] => s
  | p :: ps => runFetches w (fetchJson w s p).2.1 ps

/-- Every cache entry agrees with the world: the coherence invariant the
fetch layer maintains (it only ever stores values the world returned). -/
def Coherent (w : World) (c : List (String × Json)) : Prop :=
  ∀ kv ∈ c, w.get kv.1 = some kv.2

/-- Concatenation of the global search chunks `1 .. n` in ascending
order. -/
def chunksFlat (es : Nat → List SearchEntry) (n : Nat) : List SearchEntry :=
  (List.range' 1 n).flatMap es

/-- The full global match list for a query: the stable filter of the
concatenated chunks by case-insensitive title containment (the exact
predicate `search` applies). -/
def globalMatches (es : Nat → List SearchEntry) (n : Nat)
    (query : String) : List SearchEntry :=
  (chunksFlat es n).filter fun e =>
    strContains (toLowerStr e.t) (toLowerStr query)

/-- A world returning nothing (every fetch fails). -/
def wNone : World := ⟨fun _ => none⟩

/-- A world where every path resolves to a manifest payload. -/
def wMan : World := ⟨fun _ => some (Json.manifest 0)⟩

/-- A full 100-entry cache with distinct nonempty keys. -/
def bigCache : List (String × Json) :=
  (List.range MAX_CACHE_SIZE).map fun i => ("/k" ++ toString i, Json.manifest i)

/-- A concrete site index used in witnesses. -/
def idx0 : SiteIndex := ⟨⟨10, 2, 1, "2024-01-01"⟩, ["tafsir"], [], 1, [], []⟩

/-- A world serving only the site index. -/
def wIdx : World :=
  ⟨fun p => if p = "/index.json" then some (Json.index idx0) else none⟩

/-- A concrete video detail with no neighbours and no playlist name. -/
def dA : VideoDetails :=
  ⟨"A", "Alpha", "2024-01-02", "10:00", "thA", "5", none, none, none,
   "first video", none, none, none, ⟨none, none, 1, 3⟩⟩

/-- A world serving only video `A`. -/
def wVid : World :=
  ⟨fun p => if p = "/video/A.json" then some (Json.detail dA) else none⟩

/-- The state after loading video `A` from `wVid` at process start. -/
def sA : St := ⟨[("/video/A.json", Json.detail dA)], [], none⟩

/-- Search entries for the worked global-search example. -/
def entT1 : SearchEntry :=
  ⟨"v1", "Tafsir Al-Baqarah", none, none, none, none, none, none, none⟩

def entT2 : SearchEntry :=
  ⟨"v2", "Intro", none, none, none, none, none, none, none⟩

def entT3 : SearchEntry :=
  ⟨"v3", "Tafsir An-Nisa", none, none, none, none, none, none, none⟩

/-- The chunk contents of the worked global-search example. -/
def esW : Nat → List SearchEntry := fun j =>
  if j = 1 then [entT1, entT2] else if j = 2 then [entT3] else []

/-- A world with a two-chunk global search index. -/
def wSearch : World := ⟨fun p =>
  if p = "/search/manifest.json" then some (Json.manifest 2)
  else if p = "/search/chunk-1.json" then some (Json.chunk [entT1, entT2])
  else if p = "/search/chunk-2.json" then some (Json.chunk [entT3])
  else none⟩

/-- A single search entry for the eviction scenario. -/
def entAlpha : SearchEntry :=
  ⟨"v9", "alpha", none, none, none, none, none, none, none⟩

/-- A dummy video detail used as filler payload. -/
def dDummy : VideoDetails :=
  ⟨"x", "", "", "", "", "", none, none, none, "", none, none, none,
   ⟨none, none, 0, 0⟩⟩

/-- A world with a one-chunk global search index in which every other
path resolves to a video detail (so that repeated `getVideo` calls can
fill the bounded cache). -/
def wEvict : World := ⟨fun p =>
  if p = "/search/manifest.json" then some (Json.manifest 1)
  else if p = "/search/chunk-1.json" then some (Json.chunk [entAlpha])
  else some (Json.detail dDummy)⟩

/-- Replay a sequence of `getVideo` calls (public-API load operations). -/
def runGetVideo (w : World) (s : St) : List String → St
  | [] => s
  | id :: ids => runGetVideo w (getVideo w s id).2.1 ids

/-- 99 distinct video ids, enough to evict the search manifest from the
bounded cache. -/
def fillIds : List String := (List.range 99).map fun i => toString i

/-- The state after one global search against `wEvict` at process
start: the global scope is materialized and the manifest is cached. -/
def evictS1 : St := (search wEvict St.empty "alpha" ⟨none, none, none, none⟩).2.1

/-- `evictS1` followed by 99 video loads: the search scope is still
materialized but the manifest entry has been evicted from the bounded
fetch cache. -/
def evictS2 : St := runGetVideo wEvict evictS1 fillIds

-- ===========================================================================
-- Map lemmas
-- ===========================================================================

theorem mlookup_cons_none {kv : String × α} {t : List (String × α)} {k : String}
    (h : mlookup (kv :: t) k = none) : kv.1 ≠ k ∧ mlookup t k = none := by
  by_cases hk : kv.1 = k <;> simp [mlookup, hk] at h ⊢
  exact h

theorem mapSet_of_mlookup_none {m : List (String × α)} {k : String} (v : α)
    (h : mlookup m k = none) : mapSet m k v = m ++ [(k, v)] := by
  induction m with
  | nil => rfl
  | cons kv t ih =>
      obtain ⟨h1, h2⟩ := mlookup_cons_none h
      simp [mapSet, h1, ih h2]

theorem keys_append (m m' : List (String × α)) :
    keys (m ++ m') = keys m ++ keys m' := by
  simp [keys]

-- ===========================================================================
-- C1: the bounded FIFO fetch cache
-- ===========================================================================

theorem cacheOK_cacheSet {c : List (String × Json)} {key : String} {v : Json}
    (hc : CacheOK c) (hnone : mlookup c key = none) (hkey : key ≠ "") :
    CacheOK (cacheSet c key v) := by
  obtain ⟨hlen, hkeys⟩ := hc
  unfold cacheSet
  by_cases hfull : MAX_CACHE_SIZE ≤ c.length
  · have hlen100 : c.length = MAX_CACHE_SIZE := le_antisymm hlen hfull
    cases c with
    | nil => simp [MAX_CACHE_SIZE] at hlen100
    | cons hd t =>
        obtain ⟨hne, hnone'⟩ := mlookup_cons_none hnone
        have hhd : hd.1 ≠ "" := hkeys hd.1 (by simp [keys])
        simp only [hfull, if_pos, List.head?_cons, hhd, if_neg, mapDelete,
          ite_true, ite_false, if_false]
        rw [mapSet_of_mlookup_none v hnone']
        constructor
        · simp at hlen100 ⊢
          omega
        · intro k hk
          rw [keys_append] at hk
          rcases List.mem_append.mp hk with h | h
          · exact hkeys k (by simp [keys] at h ⊢; exact Or.inr h)
          · simp [keys] at h
            subst h
            exact hkey
  · simp only [hfull, if_neg, if_false]
    rw [mapSet_of_mlookup_none v hnone]
    constructor
    · simp
      omega
    · intro k hk
      rw [keys_append] at hk
      rcases List.mem_append.mp hk with h | h
      · exact hkeys k h
      · simp [keys] at h
        subst h
        exact hkey

theorem cacheOK_fetchJson {w : World} {s : St} {path : String}
    (hc : CacheOK s.cache) (hp : path ≠ "") :
    CacheOK (fetchJson w s path).2.1.cache := by
  unfold fetchJson
  cases hml : mlookup s.cache path with
  | some v => exact hc
  | none =>
      cases hw : w.get path with
      | some data => exact cacheOK_cacheSet hc hml hp
      | none => exact hc

theorem cacheOK_runFetches {w : World} :
    ∀ (ops : List String) (s : St), CacheOK s.cache →
      (∀ p ∈ ops, p ≠ "") → CacheOK (runFetches w s ops).cache
  | [], _, hc, _ => hc
  | p :: ps, s, hc, hops =>
      cacheOK_runFetches ps _
        (cacheOK_fetchJson hc (hops p (by simp)))
        (fun q hq => hops q (by simp [hq]))

/-- **C1** For every sequence of load operations (with the program's
nonempty paths), the bounded fetch cache holds at most
`MAX_CACHE_SIZE = 100` entries at all times; a fetch of a not-yet-cached
path completing while the cache holds 100 entries evicts exactly the
earliest-inserted still-present entry (the head of the insertion-ordered
cache) before appending the new entry; and a cache read-hit returns the
cached value leaving the whole state — hence the eviction order —
unchanged (FIFO, no promotion on read-hit). -/
theorem C1_cache_fifo :
    (∀ (w : World) (ops : List String), (∀ p ∈ ops, p ≠ "") →
       CacheOK (runFetches w St.empty ops).cache) ∧
    (∀ (w : World) (s : St) (path : String) (v : Json),
       (∀ k ∈ keys s.cache, k ≠ "") → s.cache.length = MAX_CACHE_SIZE →
       mlookup s.cache path = none → w.get path = some v →
       (fetchJson w s path).2.1.cache = s.cache.tail ++ [(path, v)]) ∧
    (∀ (w : World) (s : St) (path : String) (v : Json),
       mlookup s.cache path = some v →
       fetchJson w s path = (some v, s, [])) := by
  refine ⟨?_, ?_, ?_⟩
  · intro w ops hops
    exact cacheOK_runFetches ops St.empty ⟨by simp [St.empty, MAX_CACHE_SIZE], by simp [St.empty, keys]⟩ hops
  · intro w s path v hkeys hlen hnone hw
    have hfj : fetchJson w s path =
        (some v, { s with cache := cacheSet s.cache path v }, [path]) := by
      unfold fetchJson
      rw [hnone, hw]
    rw [hfj]
    cases hcs : s.cache with
    | nil => rw [hcs] at hlen; simp [MAX_CACHE_SIZE] at hlen
    | cons hd t =>
        rw [hcs] at hkeys hlen hnone
        obtain ⟨hne, hnone'⟩ := mlookup_cons_none hnone
        have hhd : hd.1 ≠ "" := hkeys hd.1 (by simp [keys])
        show cacheSet (hd :: t) path v = (hd :: t).tail ++ [(path, v)]
        unfold cacheSet
        simp only [hlen, le_refl, if_pos, List.head?_cons, hhd, if_neg,
          mapDelete, ite_true, ite_false, if_false, List.tail_cons]
        rw [mapSet_of_mlookup_none v hnone']
  · intro w s path v h
    unfold fetchJson
    rw [h]

/-- Witness for C1: a concrete run, a concrete eviction at a full cache,
and a concrete read-hit. -/
theorem C1_cache_fifo_witness :
    CacheOK (runFetches wNone St.empty ["/a", "/b"]).cache ∧
    (fetchJson wMan ⟨bigCache, [], none⟩ "/new").2.1.cache =
      bigCache.tail ++ [("/new", Json.manifest 0)] ∧
    fetchJson wNone ⟨[("/a", Json.manifest 7)], [], none⟩ "/a" =
      (some (Json.manifest 7), ⟨[("/a", Json.manifest 7)], [], none⟩, []) :=
  ⟨C1_cache_fifo.1 wNone ["/a", "/b"] (by decide),
   C1_cache_fifo.2.1 wMan ⟨bigCache, [], none⟩ "/new" (Json.manifest 0)
     (by decide) (by decide) (by decide) rfl,
   C1_cache_fifo.2.2 wNone ⟨[("/a", Json.manifest 7)], [], none⟩ "/a"
     (Json.manifest 7) (by decide)⟩

-- ===========================================================================
-- Small helper lemmas
-- ===========================================================================

theorem data_ne_nil {s : String} (h : s ≠ "") : s.data ≠ [] := by
  cases s with
  | mk l =>
      intro he
      exact h (by rw [show l = [] from he])

theorem truthyStr_of_ne {s : String} (h : s ≠ "") :
    truthyStr (some s) = true := by
  have hd := data_ne_nil h
  cases hl : s.data with
  | nil => exact absurd hl hd
  | cons a t => simp [truthyStr, hl]

theorem ceilPages_zero (ps : Int) : ceilPages 0 ps = 0 := by
  unfold ceilPages
  by_cases h : ps ≤ 0
  · simp [h]
  · simp only [h, if_false]
    norm_cast
    apply Nat.div_eq_of_lt
    omega

-- ===========================================================================
-- C5: the single-slot index memo
-- ===========================================================================

/-- **C5** `getIndex` loads the site index at most once per process:
with the memo filled, every call returns the memoized instance with no
fetch and no state change, whatever the bounded fetch cache contains
(in particular after `/index.json` has been evicted from it); the first
successful call performs exactly one fetch of `/index.json` and fills
the memo; and a failing first fetch propagates the error (`none`) with
the state unchanged — no degraded index is returned. -/
theorem C5_getIndex_memo :
    (∀ (w : World) (s : St) (i : SiteIndex), s.indexCache = some i →
       getIndex w s = (some i, s, [])) ∧
    (∀ (w : World) (s : St) (i : SiteIndex), s.indexCache = none →
       mlookup s.cache "/index.json" = none →
       w.get "/index.json" = some (Json.index i) →
       getIndex w s =
         (some i,
          ⟨cacheSet s.cache "/index.json" (Json.index i), s.searchCache, some i⟩,
          ["/index.json"])) ∧
    (∀ (w : World) (s : St), s.indexCache = none →
       mlookup s.cache "/index.json" = none →
       w.get "/index.json" = none →
       getIndex w s = (none, s, ["/index.json"])) := by
  refine ⟨?_, ?_, ?_⟩
  · intro w s i h
    unfold getIndex
    rw [h]
  · intro w s i h hm hw
    unfold getIndex fetchJson
    rw [h, hm, hw]
  · intro w s h hm hw
    unfold getIndex fetchJson
    rw [h, hm, hw]

/-- Witness for C5: a memo hit with an unrelated cache, a first
successful load, and a propagated failure. -/
theorem C5_getIndex_memo_witness :
    getIndex wNone ⟨bigCache, [], some idx0⟩ =
      (some idx0, ⟨bigCache, [], some idx0⟩, []) ∧
    getIndex wIdx St.empty =
      (some idx0, ⟨[("/index.json", Json.index idx0)], [], some idx0⟩,
       ["/index.json"]) ∧
    getIndex wNone St.empty = (none, St.empty, ["/index.json"]) :=
  ⟨C5_getIndex_memo.1 wNone ⟨bigCache, [], some idx0⟩ idx0 rfl,
   C5_getIndex_memo.2.1 wIdx St.empty idx0 rfl rfl rfl,
   C5_getIndex_memo.2.2 wNone St.empty rfl rfl rfl⟩

-- ===========================================================================
-- C6: getVideos degrades on failure
-- ===========================================================================

/-- **C6** `getVideos` never throws (it is total in the embedding): when
the fetch of the requested page fragment fails, it returns the empty
`VideoPage` — `items = []`, `total = 0`, `totalPages = 0` — echoing the
requested page number with the fixed page size 24, instead of
propagating the error; the state is unchanged. -/
theorem C6_getVideos_degrades (w : World) (s : St) (o : GetVideosOptions)
    (hmiss : mlookup s.cache
      (getVideosPath (o.page.getD 1) (o.sort.getD SortMode.date)
        o.category o.playlistId) = none)
    (hfail : w.get
      (getVideosPath (o.page.getD 1) (o.sort.getD SortMode.date)
        o.category o.playlistId) = none) :
    getVideos w s o =
      (⟨[], 0, o.page.getD 1, 24, 0⟩, s,
       [getVideosPath (o.page.getD 1) (o.sort.getD SortMode.date)
          o.category o.playlistId]) := by
  unfold getVideos fetchJson
  simp only [hmiss, hfail]

/-- Witness for C6: an unreachable page of an empty world degrades to
the empty page echoing page 999. -/
theorem C6_getVideos_degrades_witness :
    getVideos wNone St.empty ⟨some 999, none, none, none⟩ =
      (⟨[], 0, 999, 24, 0⟩, St.empty, ["/videos/date/page-999.json"]) :=
  C6_getVideos_degrades wNone St.empty ⟨some 999, none, none, none⟩ rfl rfl

-- ===========================================================================
-- C7: blank queries short-circuit
-- ===========================================================================

/-- **C7** `search` with an empty or whitespace-only query returns the
empty `VideoPage` echoing the requested page and page size, with the
state (both caches and the memo) unchanged and no fetch attempted. -/
theorem C7_blank_query (w : World) (s : St) (query : String)
    (o : SearchOptions) (hq : jsTrimmedEmpty query = true) :
    search w s query o =
      (some ⟨[], 0, o.page.getD 1, o.pageSize.getD 24, 0⟩, s, []) := by
  unfold search
  simp only [hq, if_true, ite_true]

/-- Witness for C7: a whitespace-only query against an arbitrary state. -/
theorem C7_blank_query_witness :
    search wNone ⟨bigCache, [("k", [entT1])], some idx0⟩ "   "
      ⟨none, none, some 3, some 10⟩ =
      (some ⟨[], 0, 3, 10, 0⟩, ⟨bigCache, [("k", [entT1])], some idx0⟩, []) :=
  C7_blank_query wNone ⟨bigCache, [("k", [entT1])], some idx0⟩ "   "
    ⟨none, none, some 3, some 10⟩ (by decide)

-- ===========================================================================
-- C8: path construction and precedence
-- ===========================================================================

theorem fetchJson_log_miss {w : World} {s : St} {path : String}
    (h : mlookup s.cache path = none) :
    (fetchJson w s path).2.2 = [path] := by
  unfold fetchJson
  rw [h]
  cases w.get path <;> rfl

theorem getVideos_log (w : World) (s : St) (o : GetVideosOptions) :
    (getVideos w s o).2.2 =
      (fetchJson w s (getVideosPath (o.page.getD 1) (o.sort.getD SortMode.date)
        o.category o.playlistId)).2.2 := by
  unfold getVideos
  rcases h : fetchJson w s (getVideosPath (o.page.getD 1)
    (o.sort.getD SortMode.date) o.category o.playlistId) with ⟨j, s', log⟩
  cases j with
  | none => simp [h]
  | some data => cases data <;> simp [h]

/-- **C8** The resource path `getVideos` requests is the pure function
`getVideosPath` of (page, sort, category, playlistId): omitted page and
sort default to `1` and `date`; the single fetched path is
`getVideosPath` of the resolved inputs; and `getVideosPath` gives the
playlist path `/playlists/{id}/{sort}/page-{n}.json` whenever a
(truthy) playlist id is present — whatever the category —, else the
percent-encoded category path
`/categories/{category}/{sort}/page-{n}.json` for a category other than
`all`/`channel`, else the unfiltered `/videos/{sort}/page-{n}.json`. -/
theorem C8_path_construction :
    (∀ (w : World) (s : St) (c pl : Option String),
       getVideos w s ⟨none, none, c, pl⟩ =
         getVideos w s ⟨some 1, some SortMode.date, c, pl⟩) ∧
    (∀ (w : World) (s : St) (o : GetVideosOptions),
       mlookup s.cache (getVideosPath (o.page.getD 1)
         (o.sort.getD SortMode.date) o.category o.playlistId) = none →
       (getVideos w s o).2.2 =
         [getVideosPath (o.page.getD 1) (o.sort.getD SortMode.date)
            o.category o.playlistId]) ∧
    (∀ (page : Int) (sort : SortMode) (cat : Option String) (pid : String),
       pid ≠ "" →
       getVideosPath page sort cat (some pid) =
         "/playlists/" ++ pid ++ "/" ++ sortStr sort ++ "/page-" ++
           toString page ++ ".json") ∧
    (∀ (page : Int) (sort : SortMode) (cat : String),
       cat ≠ "" → cat ≠ "all" → cat ≠ "channel" →
       getVideosPath page sort (some cat) none =
         "/categories/" ++ encodeURIComponent cat ++ "/" ++ sortStr sort ++
           "/page-" ++ toString page ++ ".json") ∧
    (∀ (page : Int) (sort : SortMode),
       getVideosPath page sort none none =
         "/videos/" ++ sortStr sort ++ "/page-" ++ toString page ++ ".json") := by
  refine ⟨?_, ?_, ?_, ?_, ?_⟩
  · intro w s c pl
    rfl
  · intro w s o h
    rw [getVideos_log]
    exact fetchJson_log_miss h
  · intro page sort cat pid hpid
    unfold getVideosPath
    rw [truthyStr_of_ne hpid]
    simp
  · intro page sort cat h0 hall hchan
    unfold getVideosPath
    rw [truthyStr_of_ne h0]
    have h1 : (cat == "all") = false := beq_eq_false_iff_ne.mpr hall
    have h2 : (cat == "channel") = false := beq_eq_false_iff_ne.mpr hchan
    simp [truthyStr, h1, h2]
  · intro page sort
    rfl

/-- Witness for C8: concrete paths for each precedence case, including a
percent-encoded category. -/
theorem C8_path_construction_witness :
    (getVideos wNone St.empty ⟨none, none, none, none⟩ =
       getVideos wNone St.empty ⟨some 1, some SortMode.date, none, none⟩) ∧
    (getVideos wNone St.empty
        ⟨some 2, some SortMode.views, some "x", some "PL1"⟩).2.2 =
      [getVideosPath 2 SortMode.views (some "x") (some "PL1")] ∧
    getVideosPath 2 SortMode.views (some "x") (some "PL1") =
      "/playlists/PL1/views/page-2.json" ∧
    getVideosPath 1 SortMode.date (some "a b") none =
      "/categories/a%20b/date/page-1.json" ∧
    getVideosPath 1 SortMode.oldest none none = "/videos/oldest/page-1.json" :=
  ⟨C8_path_construction.1 wNone St.empty none none,
   C8_path_construction.2.1 wNone St.empty
     ⟨some 2, some SortMode.views, some "x", some "PL1"⟩ rfl,
   C8_path_construction.2.2.1 2 SortMode.views (some "x") "PL1" (by decide),
   C8_path_construction.2.2.2.1 1 SortMode.date "a b" (by decide) (by decide)
     (by decide),
   C8_path_construction.2.2.2.2 1 SortMode.oldest⟩

-- ===========================================================================
-- C10: "all" and "channel" behave as no category
-- ===========================================================================

/-- **C10** The category values `"all"` and `"channel"` (with no
playlist id) are treated exactly as an absent category, by `getVideos`
(which then requests the unfiltered `/videos/{sort}/page-{n}.json`
path), by `search`, and by `getSearchEntries` (which then uses the
global `"__all__"` scope). -/
theorem C10_all_channel_unfiltered :
    (∀ (w : World) (s : St) (page : Option Int) (sort : Option SortMode),
       getVideos w s ⟨page, sort, some "all", none⟩ =
         getVideos w s ⟨page, sort, none, none⟩) ∧
    (∀ (w : World) (s : St) (page : Option Int) (sort : Option SortMode),
       getVideos w s ⟨page, sort, some "channel", none⟩ =
         getVideos w s ⟨page, sort, none, none⟩) ∧
    (∀ (w : World) (s : St) (query : String) (page pageSize : Option Int),
       search w s query ⟨some "all", none, page, pageSize⟩ =
         search w s query ⟨none, none, page, pageSize⟩) ∧
    (∀ (w : World) (s : St) (query : String) (page pageSize : Option Int),
       search w s query ⟨some "channel", none, page, pageSize⟩ =
         search w s query ⟨none, none, page, pageSize⟩) ∧
    (∀ (w : World) (s : St),
       getSearchEntries w s (some "all") none =
         getSearchEntries w s none none) ∧
    (∀ (w : World) (s : St),
       getSearchEntries w s (some "channel") none =
         getSearchEntries w s none none) := by
  refine ⟨?_, ?_, ?_, ?_, ?_, ?_⟩ <;> intros <;> rfl

-- ===========================================================================
-- C4: scoped search failure degrades, caches untouched, retry refetches
-- ===========================================================================

/-- **C4** For a non-global (playlist or category) scope whose single
entry file fails to fetch, `getSearchEntries` returns `some []` (the
error is swallowed), the whole state — bounded fetch cache, search-scope
cache, index memo — is unchanged and no sentinel is cached; the
enclosing `search` returns the empty page; and a later query for the
same scope attempts the underlying fetch again (its fetch log contains
the scope path again). -/
theorem C4_scoped_failure :
    (∀ (w : World) (s : St) (query : String) (page pageSize : Option Int)
       (pid : String),
       pid ≠ "" →
       mlookup s.searchCache (searchPlaylistPath pid) = none →
       mlookup s.cache (searchPlaylistPath pid) = none →
       w.get (searchPlaylistPath pid) = none →
       jsTrimmedEmpty query = false →
       getSearchEntries w s none (some pid) =
         (some [], s, [searchPlaylistPath pid]) ∧
       search w s query ⟨none, some pid, page, pageSize⟩ =
         (some ⟨[], 0, page.getD 1, pageSize.getD 24, 0⟩, s,
          [searchPlaylistPath pid]) ∧
       (getSearchEntries w
          (search w s query ⟨none, some pid, page, pageSize⟩).2.1
          none (some pid)).2.2 = [searchPlaylistPath pid]) ∧
    (∀ (w : World) (s : St) (query : String) (page pageSize : Option Int)
       (cat : String),
       cat ≠ "" → cat ≠ "all" → cat ≠ "channel" →
       mlookup s.searchCache (searchCategoryPath cat) = none →
       mlookup s.cache (searchCategoryPath cat) = none →
       w.get (searchCategoryPath cat) = none →
       jsTrimmedEmpty query = false →
       getSearchEntries w s (some cat) none =
         (some [], s, [searchCategoryPath cat]) ∧
       search w s query ⟨some cat, none, page, pageSize⟩ =
         (some ⟨[], 0, page.getD 1, pageSize.getD 24, 0⟩, s,
          [searchCategoryPath cat]) ∧
       (getSearchEntries w
          (search w s query ⟨some cat, none, page, pageSize⟩).2.1
          (some cat) none).2.2 = [searchCategoryPath cat]) := by
  constructor
  · intro w s query page pageSize pid hpid hsc hc hw hq
    have hgse : getSearchEntries w s none (some pid) =
        (some [], s, [searchPlaylistPath pid]) := by
      unfold getSearchEntries
      rw [truthyStr_of_ne hpid]
      simp only [if_true, ite_true, Option.getD_some]
      unfold getSearchEntriesScoped fetchJson
      rw [hsc, hc, hw]
    have hsearch : search w s query ⟨none, some pid, page, pageSize⟩ =
        (some ⟨[], 0, page.getD 1, pageSize.getD 24, 0⟩, s,
         [searchPlaylistPath pid]) := by
      unfold search
      rw [hq]
      simp only [Bool.false_eq_true, if_false, ite_false]
      rw [hgse]
      simp [jsSlice, ceilPages_zero]
    exact ⟨hgse, hsearch, by rw [hsearch, hgse]⟩
  · intro w s query page pageSize cat h0 hall hchan hsc hc hw hq
    have hcond : (truthyStr (some cat) && !(cat == "all") &&
        !(cat == "channel")) = true := by
      rw [truthyStr_of_ne h0, beq_eq_false_iff_ne.mpr hall,
        beq_eq_false_iff_ne.mpr hchan]
      rfl
    have hgse : getSearchEntries w s (some cat) none =
        (some [], s, [searchCategoryPath cat]) := by
      unfold getSearchEntries
      rw [show truthyStr none = false from rfl]
      simp only [Bool.false_eq_true, if_false, ite_false, Option.getD_some]
      rw [hcond]
      simp only [if_true, ite_true]
      unfold getSearchEntriesScoped fetchJson
      rw [hsc, hc, hw]
    have hsearch : search w s query ⟨some cat, none, page, pageSize⟩ =
        (some ⟨[], 0, page.getD 1, pageSize.getD 24, 0⟩, s,
         [searchCategoryPath cat]) := by
      unfold search
      rw [hq]
      simp only [Bool.false_eq_true, if_false, ite_false]
      rw [hgse]
      simp [jsSlice, ceilPages_zero]
    exact ⟨hgse, hsearch, by rw [hsearch, hgse]⟩

/-- Witness for C4: failing playlist and category scopes on the empty
world. -/
theorem C4_scoped_failure_witness :
    (getSearchEntries wNone St.empty none (some "PLx") =
       (some [], St.empty, [searchPlaylistPath "PLx"]) ∧
     search wNone St.empty "a" ⟨none, some "PLx", none, none⟩ =
       (some ⟨[], 0, 1, 24, 0⟩, St.empty, [searchPlaylistPath "PLx"]) ∧
     (getSearchEntries wNone
        (search wNone St.empty "a" ⟨none, some "PLx", none, none⟩).2.1
        none (some "PLx")).2.2 = [searchPlaylistPath "PLx"]) ∧
    (getSearchEntries wNone St.empty (some "fiqh") none =
       (some [], St.empty, [searchCategoryPath "fiqh"]) ∧
     search wNone St.empty "a" ⟨some "fiqh", none, none, none⟩ =
       (some ⟨[], 0, 1, 24, 0⟩, St.empty, [searchCategoryPath "fiqh"]) ∧
     (getSearchEntries wNone
        (search wNone St.empty "a" ⟨some "fiqh", none, none, none⟩).2.1
        (some "fiqh") none).2.2 = [searchCategoryPath "fiqh"]) :=
  ⟨C4_scoped_failure.1 wNone St.empty "a" none none "PLx" (by decide) rfl rfl
     rfl (by decide),
   C4_scoped_failure.2 wNone St.empty "a" none none "fiqh" (by decide)
     (by decide) (by decide) rfl rfl rfl (by decide)⟩

-- ===========================================================================
-- C9: the video page loader
-- ===========================================================================

/-- **C9** When the detail of a video loads, `loadVideoPage` succeeds
and: `playlistVideoCount` and `currentIndex` come from the detail's
navigation block (`nav.total`, `nav.index`); a missing playlist name
falls back to the default human-readable name (a nonempty present name
is kept); a `null` `nav.prev` (resp. `nav.next`) yields a `null`
neighbour, and when both are `null` no fetch beyond the detail's own is
attempted (the log is exactly the detail's); and a neighbour whose own
load fails yields `null` for that neighbour while the loader still
succeeds. -/
theorem C9_loadVideoPage (w : World) (s : St) (vid : String)
    (d : VideoDetails) (s1 : St) (l1 : List String)
    (hv : getVideo w s vid = (some d, s1, l1)) :
    ((loadVideoPage w s vid).1.map VideoPageData.playlistVideoCount =
       some d.nav.total) ∧
    ((loadVideoPage w s vid).1.map VideoPageData.currentIndex =
       some d.nav.index) ∧
    (d.playlistName = none →
       (loadVideoPage w s vid).1.map VideoPageData.playlistName =
         some "دروس متنوعة") ∧
    (∀ nm, d.playlistName = some nm → nm.data.isEmpty = false →
       (loadVideoPage w s vid).1.map VideoPageData.playlistName = some nm) ∧
    (d.nav.prev = none →
       (loadVideoPage w s vid).1.map VideoPageData.prevVideo = some none) ∧
    (d.nav.next = none →
       (loadVideoPage w s vid).1.map VideoPageData.nextVideo = some none) ∧
    (d.nav.prev = none → d.nav.next = none →
       loadVideoPage w s vid =
         (some ⟨d, none, none, jsOr d.playlistName "دروس متنوعة",
            d.nav.total, d.nav.index⟩, s1, l1)) ∧
    (∀ pid, d.nav.prev = some pid →
       (getVideo w s1 pid).1 = none →
       (loadVideoPage w s vid).1.map VideoPageData.prevVideo = some none) := by
  have hmain : loadVideoPage w s vid =
      (some ⟨d, (loadNeighbor w s1 d.nav.prev).1,
         (loadNeighbor w (loadNeighbor w s1 d.nav.prev).2.1 d.nav.next).1,
         jsOr d.playlistName "دروس متنوعة", d.nav.total, d.nav.index⟩,
       (loadNeighbor w (loadNeighbor w s1 d.nav.prev).2.1 d.nav.next).2.1,
       l1 ++ (loadNeighbor w s1 d.nav.prev).2.2 ++
         (loadNeighbor w (loadNeighbor w s1 d.nav.prev).2.1 d.nav.next).2.2) := by
    unfold loadVideoPage
    rw [hv]
  refine ⟨?_, ?_, ?_, ?_, ?_, ?_, ?_, ?_⟩
  · rw [hmain]; rfl
  · rw [hmain]; rfl
  · intro h
    rw [hmain]
    simp [jsOr, h]
  · intro nm hnm hne
    rw [hmain]
    simp [jsOr, hnm, hne]
  · intro h
    rw [hmain]
    simp [h, loadNeighbor]
  · intro h
    rw [hmain]
    simp [h, loadNeighbor]
  · intro h1 h2
    rw [hmain]
    simp [h1, h2, loadNeighbor]
  · intro pid hprev hfail
    rw [hmain]
    rcases hn : getVideo w s1 pid with ⟨r, s2, l2⟩
    rw [hn] at hfail
    simp only at hfail
    subst hfail
    simp [hprev, loadNeighbor, hn]

/-- Witness for C9: video `A` has no neighbours and no playlist name;
its page loads with `null` neighbours, the default playlist name, and
no fetch beyond `/video/A.json`. -/
theorem C9_loadVideoPage_witness :
    loadVideoPage wVid St.empty "A" =
      (some ⟨dA, none, none, "دروس متنوعة", 3, 1⟩, sA, ["/video/A.json"]) :=
  (C9_loadVideoPage wVid St.empty "A" dA sA ["/video/A.json"]
    rfl).2.2.2.2.2.2.1 rfl rfl

-- ===========================================================================
-- Coherence of the fetch cache with the world
-- ===========================================================================

theorem mlookup_mem {m : List (String × α)} {k : String} {v : α} :
    mlookup m k = some v → (k, v) ∈ m := by
  induction m with
  | nil => intro h; simp [mlookup] at h
  | cons kv t ih =>
      intro h
      rw [mlookup] at h
      by_cases hk : kv.1 = k
      · rw [if_pos hk] at h
        have hv : kv.2 = v := by injection h
        have hkv : kv = (k, v) := by
          cases kv
          simp_all
        rw [← hkv]
        exact List.mem_cons_self _ _
      · rw [if_neg hk] at h
        exact List.mem_cons_of_mem _ (ih h)

theorem mem_mapSet {m : List (String × α)} {k : String} {v : α}
    {kv : String × α} :
    kv ∈ mapSet m k v → kv ∈ m ∨ kv = (k, v) := by
  induction m with
  | nil =>
      intro h
      simp [mapSet] at h
      exact Or.inr h
  | cons kv' t ih =>
      intro h
      rw [mapSet] at h
      by_cases hk : kv'.1 = k
      · rw [if_pos hk] at h
        rcases List.mem_cons.mp h with h | h
        · exact Or.inr h
        · exact Or.inl (List.mem_cons_of_mem _ h)
      · rw [if_neg hk] at h
        rcases List.mem_cons.mp h with h | h
        · exact Or.inl (h ▸ List.mem_cons_self _ _)
        · rcases ih h with h | h
          · exact Or.inl (List.mem_cons_of_mem _ h)
          · exact Or.inr h

theorem mem_mapDelete {m : List (String × α)} {k : String}
    {kv : String × α} :
    kv ∈ mapDelete m k → kv ∈ m := by
  induction m with
  | nil => intro h; simp [mapDelete] at h
  | cons kv' t ih =>
      intro h
      rw [mapDelete] at h
      by_cases hk : kv'.1 = k
      · rw [if_pos hk] at h
        exact List.mem_cons_of_mem _ h
      · rw [if_neg hk] at h
        rcases List.mem_cons.mp h with h | h
        · exact h ▸ List.mem_cons_self _ _
        · exact List.mem_cons_of_mem _ (ih h)

theorem mem_cacheSet {c : List (String × Json)} {key : String} {v : Json}
    {kv : String × Json} (h : kv ∈ cacheSet c key v) :
    kv ∈ c ∨ kv = (key, v) := by
  unfold cacheSet at h
  rcases mem_mapSet h with h | h
  · left
    split at h
    · split at h
      · split at h
        · exact h
        · exact mem_mapDelete h
      · exact h
    · exact h
  · exact Or.inr h

theorem fetchJson_coherent {w : World} {s : St} {path : String} {v : Json}
    (hc : Coherent w s.cache) (hw : w.get path = some v) :
    (fetchJson w s path).1 = some v ∧
    Coherent w (fetchJson w s path).2.1.cache ∧
    (fetchJson w s path).2.1.searchCache = s.searchCache ∧
    (fetchJson w s path).2.1.indexCache = s.indexCache := by
  unfold fetchJson
  cases hml : mlookup s.cache path with
  | some u =>
      have hu := hc _ (mlookup_mem hml)
      rw [hw] at hu
      have : v = u := by injection hu
      subst this
      exact ⟨rfl, hc, rfl, rfl⟩
  | none =>
      rw [hw]
      refine ⟨rfl, ?_, rfl, rfl⟩
      intro kv hkv
      rcases mem_cacheSet hkv with h | h
      · exact hc _ h
      · rw [h]; exact hw

-- ===========================================================================
-- C2: the global search pipeline
-- ===========================================================================

theorem loadChunks_spec (w : World) (es : Nat → List SearchEntry) :
    ∀ (idxs : List Nat) (acc : List SearchEntry) (s : St)
      (log : List String),
      Coherent w s.cache →
      (∀ j ∈ idxs, w.get (chunkPath j) = some (Json.chunk (es j))) →
      ∃ s' log', loadChunks w idxs acc s log =
          (some (acc ++ idxs.flatMap es), s', log') ∧
        Coherent w s'.cache ∧ s'.searchCache = s.searchCache ∧
        s'.indexCache = s.indexCache := by
  intro idxs
  induction idxs with
  | nil =>
      intro acc s log hc _
      exact ⟨s, log, by simp [loadChunks], hc, rfl, rfl⟩
  | cons i rest ih =>
      intro acc s log hc hw
      have hchunk := hw i (List.mem_cons_self i rest)
      obtain ⟨hval, hcoh, hscp, hicp⟩ := fetchJson_coherent hc hchunk
      rcases hfj : fetchJson w s (chunkPath i) with ⟨r, s1, l1⟩
      rw [hfj] at hval hcoh hscp hicp
      simp only at hval hcoh hscp hicp
      subst hval
      obtain ⟨s', log', hrec, hcoh', hsc', hic'⟩ :=
        ih (acc ++ es i) s1 (log ++ l1) hcoh
          (fun j hj => hw j (List.mem_cons_of_mem i hj))
      refine ⟨s', log', ?_, hcoh', by rw [hsc', hscp], by rw [hic', hicp]⟩
      simp only [loadChunks, hfj]
      rw [hrec]
      simp [List.append_assoc]

theorem getSearchEntries_global_load (w : World) (s : St)
    (es : Nat → List SearchEntry) (n : Nat)
    (hcoh : Coherent w s.cache)
    (hman : w.get "/search/manifest.json" = some (Json.manifest n))
    (hchunks : ∀ j, 1 ≤ j → j ≤ n →
      w.get (chunkPath j) = some (Json.chunk (es j)))
    (hsc : mlookup s.searchCache "__all__" = none) :
    ∃ s' log, getSearchEntries w s none none =
      (some (chunksFlat es n), s', log) := by
  obtain ⟨hr, hcoh1, hsc1, hic1⟩ := fetchJson_coherent hcoh hman
  rcases hfj : fetchJson w s "/search/manifest.json" with ⟨r, s1, l1⟩
  rw [hfj] at hr hcoh1 hsc1
  simp only at hr hcoh1 hsc1
  subst hr
  obtain ⟨s2, log2, hlc, hcoh2, hsc2, hic2⟩ :=
    loadChunks_spec w es (List.range' 1 n) [] s1 l1 hcoh1
      (fun j hj => by
        have hm := List.mem_range'_1.mp hj
        exact hchunks j hm.1 (by omega))
  have hmain : getSearchEntries w s none none =
      (some (chunksFlat es n),
       ⟨s2.cache,
        mapSet s2.searchCache "__all__"
          ([] ++ (List.range' 1 n).flatMap es),
        s2.indexCache⟩,
       log2) := by
    unfold getSearchEntries
    simp only [truthyStr, Bool.false_eq_true, if_false, ite_false, hfj]
    rw [show mlookup s1.searchCache "__all__" = none from by
      rw [hsc1]; exact hsc]
    rw [hlc]
    rfl
  exact ⟨_, _, hmain⟩

theorem page_slice_length (L page pageSize : Nat) (hpage : 1 ≤ page)
    (hps : 1 ≤ pageSize) :
    min pageSize (L - (page - 1) * pageSize) =
      if page ≤ (L + pageSize - 1) / pageSize then
        min pageSize (L - pageSize * (page - 1))
      else 0 := by
  by_cases hin : page ≤ (L + pageSize - 1) / pageSize
  · rw [if_pos hin, Nat.mul_comm pageSize (page - 1)]
  · rw [if_neg hin]
    have hmul : (page - 1) * pageSize = page * pageSize - pageSize := by
      rw [Nat.sub_mul, Nat.one_mul]
    have hdiv : page ≤ (L + pageSize - 1) / pageSize ↔
        page * pageSize ≤ L + pageSize - 1 := Nat.le_div_iff_mul_le hps
    have hgt : ¬ page * pageSize ≤ L + pageSize - 1 := fun hcon =>
      hin (hdiv.mpr hcon)
    have hp1 : pageSize ≤ page * pageSize :=
      Nat.le_mul_of_pos_left pageSize hpage
    have hle : L ≤ (page - 1) * pageSize := by
      rw [hmul]
      generalize hM : page * pageSize = M at hgt hp1
      omega
    rw [Nat.sub_eq_zero_of_le hle]
    simp

theorem jsSlice_nat (l : List α) (a b : Nat) :
    jsSlice l (a : Int) (b : Int) = (l.drop a).take (b - a) := by
  simp only [jsSlice]
  rw [if_neg (by omega : ¬(a : Int) < 0), if_neg (by omega : ¬(b : Int) < 0)]
  have ha : (min (a : Int) (l.length : Int)).toNat = min a l.length := by omega
  have hb : (min (b : Int) (l.length : Int)).toNat = min b l.length := by omega
  rw [ha, hb]
  have htake : l.take (min b l.length) = l.take b := by
    rcases Nat.le_total b l.length with h | h
    · rw [Nat.min_eq_left h]
    · rw [Nat.min_eq_right h, List.take_length, List.take_of_length_le h]
  rw [htake]
  have hdrop : (l.take b).drop (min a l.length) = (l.take b).drop a := by
    rcases Nat.le_total a l.length with h | h
    · rw [Nat.min_eq_left h]
    · rw [Nat.min_eq_right h]
      have hlt : (l.take b).length ≤ l.length := by
        simp [List.length_take]
      rw [List.drop_of_length_le hlt,
        List.drop_of_length_le (le_trans hlt h)]
  rw [hdrop]
  rcases Nat.le_total a b with h | h
  · have ht := List.take_drop a (b - a) l
    rw [Nat.add_sub_cancel' h] at ht
    exact ht.symm
  · rw [Nat.sub_eq_zero_of_le h, List.take_zero]
    apply List.drop_of_length_le
    simp [List.length_take]
    omega

/-- **C2** For every non-blank query in the global scope (with the
manifest and all chunks well-typed, a coherent fetch cache and the scope
not yet materialized): the searched entry list is the concatenation of
chunks `1..totalChunks` in ascending order; the result's `total` is the
number of entries whose lower-cased title contains the lower-cased
query; `items` is the contiguous page slice of the stable filter of the
matches; `page`/`pageSize` are echoed; `totalPages = ⌈total/pageSize⌉`;
and `items.length = min(pageSize, total - pageSize*(page-1))` for an
in-range page and `0` otherwise. -/
theorem C2_global_search (w : World) (s : St) (es : Nat → List SearchEntry)
    (n : Nat) (query : String) (page pageSize : Nat)
    (hcoh : Coherent w s.cache)
    (hman : w.get "/search/manifest.json" = some (Json.manifest n))
    (hchunks : ∀ j, 1 ≤ j → j ≤ n →
      w.get (chunkPath j) = some (Json.chunk (es j)))
    (hsc : mlookup s.searchCache "__all__" = none)
    (hq : jsTrimmedEmpty query = false)
    (hpage : 1 ≤ page) (hps : 1 ≤ pageSize) :
    ∃ pg s' log,
      search w s query
          ⟨none, none, some (page : Int), some (pageSize : Int)⟩ =
        (some pg, s', log) ∧
      pg.total = ((globalMatches es n query).length : Int) ∧
      pg.items = (((globalMatches es n query).drop
        ((page - 1) * pageSize)).take pageSize).map entryToVideo ∧
      pg.page = (page : Int) ∧
      pg.pageSize = (pageSize : Int) ∧
      pg.totalPages =
        ((((globalMatches es n query).length + pageSize - 1) / pageSize : Nat) :
          Int) ∧
      pg.items.length =
        (if page ≤ ((globalMatches es n query).length + pageSize - 1) / pageSize
         then min pageSize
           ((globalMatches es n query).length - pageSize * (page - 1))
         else 0) := by
  obtain ⟨s', log, hgse⟩ :=
    getSearchEntries_global_load w s es n hcoh hman hchunks hsc
  have hstart : ((page : Int) - 1) * (pageSize : Int) =
      (((page - 1) * pageSize : Nat) : Int) := by
    rw [show ((page : Int) - 1) = ((page - 1 : Nat) : Int) from by omega,
      ← Nat.cast_mul]
  have hsearch : search w s query
      ⟨none, none, some (page : Int), some (pageSize : Int)⟩ =
      (some ⟨(((globalMatches es n query).drop
          ((page - 1) * pageSize)).take pageSize).map entryToVideo,
        ((globalMatches es n query).length : Int), (page : Int),
        (pageSize : Int),
        ((((globalMatches es n query).length + pageSize - 1) / pageSize :
          Nat) : Int)⟩, s', log) := by
    unfold search
    rw [hq]
    simp only [Bool.false_eq_true, if_false, ite_false, hgse,
      Option.getD_some]
    rw [hstart,
      show (((page - 1) * pageSize : Nat) : Int) + (pageSize : Int) =
        (((page - 1) * pageSize + pageSize : Nat) : Int) from by
          push_cast; ring,
      jsSlice_nat, Nat.add_sub_cancel_left]
    rw [show ceilPages ((chunksFlat es n).filter fun e =>
          strContains (toLowerStr e.t) (toLowerStr query)).length
          (pageSize : Int) =
        (((((chunksFlat es n).filter fun e =>
            strContains (toLowerStr e.t) (toLowerStr query)).length +
          pageSize - 1) / pageSize : Nat) : Int) from by
      unfold ceilPages
      rw [if_neg (by omega : ¬(pageSize : Int) ≤ 0)]
      simp]
    rfl
  refine ⟨_, s', log, hsearch, rfl, rfl, rfl, rfl, rfl, ?_⟩
  simp only [globalMatches]
  rw [show (((((chunksFlat es n).filter fun e =>
        strContains (toLowerStr e.t) (toLowerStr query)).drop
          ((page - 1) * pageSize)).take pageSize).map entryToVideo).length =
      min pageSize (((chunksFlat es n).filter fun e =>
        strContains (toLowerStr e.t) (toLowerStr query)).length -
          (page - 1) * pageSize) from by
    simp [List.length_map, List.length_take, List.length_drop]]
  exact page_slice_length _ page pageSize hpage hps

/-- Witness for C2: the spec's worked example — manifest with two
chunks, titles "Tafsir Al-Baqarah", "Intro", "Tafsir An-Nisa", query
"tafsir". -/
theorem C2_global_search_witness :
    ∃ pg s' log,
      search wSearch St.empty "tafsir" ⟨none, none, some 1, some 24⟩ =
        (some pg, s', log) ∧
      pg.total = ((globalMatches esW 2 "tafsir").length : Int) ∧
      pg.items = (((globalMatches esW 2 "tafsir").drop 0).take 24).map
        entryToVideo ∧
      pg.page = 1 ∧
      pg.pageSize = 24 ∧
      pg.totalPages =
        ((((globalMatches esW 2 "tafsir").length + 24 - 1) / 24 : Nat) :
          Int) ∧
      pg.items.length =
        (if 1 ≤ ((globalMatches esW 2 "tafsir").length + 24 - 1) / 24
         then min 24 ((globalMatches esW 2 "tafsir").length - 24 * 0)
         else 0) :=
  C2_global_search wSearch St.empty esW 2 "tafsir" 1 24
    (fun kv hkv => absurd hkv (List.not_mem_nil kv)) rfl
    (by
      intro j h1 h2
      interval_cases j
      · rfl
      · rfl)
    rfl (by decide) (by decide) (by decide)

-- ===========================================================================
-- C3: scope-cache reuse (corrected)
-- ===========================================================================

set_option maxRecDepth 100000 in
/-- **C3 counterexample** The claim "once a scope's entry list has been
materialized, every later search query against the same scope issues no
further fetch of any kind for that scope (including no manifest fetch)"
is false for the global scope: after one global search materializes
`"__all__"` (first conjunct) and 99 ordinary video loads evict the
manifest from the bounded fetch cache, the scope is still materialized
(second conjunct), yet the next global search issues an underlying
fetch of `/search/manifest.json` (third conjunct). -/
theorem C3_counterexample :
    (mlookup evictS1.searchCache "__all__").isSome = true ∧
    (mlookup evictS2.searchCache "__all__").isSome = true ∧
    (search wEvict evictS2 "alpha" ⟨none, none, none, none⟩).2.2 =
      ["/search/manifest.json"] :=
  ⟨rfl, rfl, rfl⟩

/-- **C3 (amended)** For category and playlist scopes, once the scope's
entry list is in the search-scope cache, every later query reuses it
with no fetch of any kind and no state change.  For the global scope, a
later query reuses the cached entry list and never re-fetches any
chunk, but it always re-requests the manifest through the bounded fetch
cache: no underlying fetch happens while the manifest entry is still
cached, and one underlying manifest fetch happens when it is not (e.g.
after eviction). -/
theorem C3_scope_cache_reuse :
    (∀ (w : World) (s : St) (pid : String) (es : List SearchEntry),
       pid ≠ "" →
       mlookup s.searchCache (searchPlaylistPath pid) = some es →
       getSearchEntries w s none (some pid) = (some es, s, [])) ∧
    (∀ (w : World) (s : St) (cat : String) (es : List SearchEntry),
       cat ≠ "" → cat ≠ "all" → cat ≠ "channel" →
       mlookup s.searchCache (searchCategoryPath cat) = some es →
       getSearchEntries w s (some cat) none = (some es, s, [])) ∧
    (∀ (w : World) (s : St) (es : List SearchEntry) (n : Nat),
       mlookup s.searchCache "__all__" = some es →
       mlookup s.cache "/search/manifest.json" = some (Json.manifest n) →
       getSearchEntries w s none none = (some es, s, [])) ∧
    (∀ (w : World) (s : St) (es : List SearchEntry) (n : Nat),
       mlookup s.searchCache "__all__" = some es →
       mlookup s.cache "/search/manifest.json" = none →
       w.get "/search/manifest.json" = some (Json.manifest n) →
       getSearchEntries w s none none =
         (some es,
          ⟨cacheSet s.cache "/search/manifest.json" (Json.manifest n),
           s.searchCache, s.indexCache⟩,
          ["/search/manifest.json"])) := by
  refine ⟨?_, ?_, ?_, ?_⟩
  · intro w s pid es hpid hsc
    unfold getSearchEntries
    rw [truthyStr_of_ne hpid]
    simp only [if_true, ite_true, Option.getD_some]
    unfold getSearchEntriesScoped
    rw [hsc]
  · intro w s cat es h0 hall hchan hsc
    have hcond : (truthyStr (some cat) && !(cat == "all") &&
        !(cat == "channel")) = true := by
      rw [truthyStr_of_ne h0, beq_eq_false_iff_ne.mpr hall,
        beq_eq_false_iff_ne.mpr hchan]
      rfl
    unfold getSearchEntries
    rw [show truthyStr none = false from rfl]
    simp only [Bool.false_eq_true, if_false, ite_false, Option.getD_some]
    rw [hcond]
    simp only [if_true, ite_true]
    unfold getSearchEntriesScoped
    rw [hsc]
  · intro w s es n hsc hcache
    unfold getSearchEntries fetchJson
    simp only [truthyStr, Bool.false_eq_true, if_false, ite_false, hcache,
      hsc]
    rfl
  · intro w s es n hsc hmiss hw
    unfold getSearchEntries fetchJson
    simp only [truthyStr, Bool.false_eq_true, if_false, ite_false, hmiss,
      hw, hsc]
    rfl

/-- Witness for the amended C3: cached playlist, category and global
scopes are reused — the global scope with a cached manifest issues no
fetch, and with the manifest evicted issues exactly the manifest
fetch. -/
theorem C3_scope_cache_reuse_witness :
    getSearchEntries wNone ⟨[], [(searchPlaylistPath "PL1", [entT1])], none⟩
      none (some "PL1") =
      (some [entT1], ⟨[], [(searchPlaylistPath "PL1", [entT1])], none⟩, []) ∧
    getSearchEntries wNone ⟨[], [(searchCategoryPath "fiqh", [entT2])], none⟩
      (some "fiqh") none =
      (some [entT2], ⟨[], [(searchCategoryPath "fiqh", [entT2])], none⟩, []) ∧
    getSearchEntries wNone
      ⟨[("/search/manifest.json", Json.manifest 1)],
       [("__all__", [entAlpha])], none⟩ none none =
      (some [entAlpha],
       ⟨[("/search/manifest.json", Json.manifest 1)],
        [("__all__", [entAlpha])], none⟩, []) ∧
    getSearchEntries wEvict ⟨[], [("__all__", [entAlpha])], none⟩ none none =
      (some [entAlpha],
       ⟨cacheSet [] "/search/manifest.json" (Json.manifest 1),
        [("__all__", [entAlpha])], none⟩,
       ["/search/manifest.json"]) :=
  ⟨C3_scope_cache_reuse.1 wNone _ "PL1" [entT1] (by decide) rfl,
   C3_scope_cache_reuse.2.1 wNone _ "fiqh" [entT2] (by decide) (by decide)
     (by decide) rfl,
   C3_scope_cache_reuse.2.2.1 wNone _ [entAlpha] 1 rfl rfl,
   C3_scope_cache_reuse.2.2.2 wEvict _ [entAlpha] 1 rfl rfl rfl⟩

end StaticData
